import Mathlib

/-!
Verification of the guide publishing backend (`helper` app).

The definitions below are a shallow embedding of the Python source:
`helper/models.py` (slug allocation in `Guide.save`, counter increments),
`helper/serializers.py` (reading time, related guides, `services_needed`
validation) and `helper/views.py` (detail retrieval, `like_guide`).
Strings are modelled over their character lists; the database is modelled
as a list of records; Django querysets become list filtering, the model
`Meta` default ordering (`-publication_date`) becomes a merge sort.
-/

namespace Helper

/-! ### Slug normalization: `django.utils.text.slugify` (ASCII path)

`slugify` lowercases, removes every character that is not alphanumeric,
underscore, whitespace or a hyphen, collapses each run of whitespace and
hyphens to a single hyphen, and strips leading/trailing hyphens and
underscores. -/

/-- Characters kept by the removal step of `slugify` (the regex keeps
word characters, whitespace and hyphens). -/
def djangoKeep (c : Char) : Bool :=
  c.isAlphanum || c == '_' || c.isWhitespace || c == '-'

/-- A character that seeds or continues a separator run. -/
def isSepChar (c : Char) : Bool :=
  c == '-' || c.isWhitespace

/-- Collapse every run of separator characters to a single hyphen.
The boolean records whether we are inside a separator run. -/
def collapseSep : List Char → Bool → List Char
  | [], _ => []
  | c :: rest, inSep =>
    if isSepChar c then
      (if inSep then collapseSep rest true else '-' :: collapseSep rest true)
    else c :: collapseSep rest false

/-- Strip hyphens and underscores from both ends (Python `.strip("-_")`). -/
def stripEnds (cs : List Char) : List Char :=
  ((cs.dropWhile (fun c => c == '-' || c == '_')).reverse.dropWhile
      (fun c => c == '-' || c == '_')).reverse

/-- Model of `django.utils.text.slugify` on ASCII input. -/
def slugify (s : String) : String :=
  String.mk (stripEnds (collapseSep ((s.data.map Char.toLower).filter djangoKeep) false))

/-! ### Slug allocation: `Guide.save` in `helper/models.py`

```python
if not self.slug:
    base_slug = slugify(self.title)
    slug = base_slug
    counter = itertools.count(1)
    while Guide.objects.filter(slug=slug).exists():
        slug = f"{base_slug}-{next(counter)}"
    self.slug = slug
super().save(*args, **kwargs)
```

The set of slugs already used by Guides is modelled as a list of strings.
The `while` loop is given fuel `existing.length + 1`; we prove this fuel is
never exhausted, because among the `existing.length + 1` pairwise distinct
candidates checked, at least one is free. -/

/-- The candidate tried at step `k` of the loop: the base slug for `k = 0`,
`f"{base_slug}-{k}"` afterwards. -/
def slugCandidate (base : String) (k : Nat) : String :=
  if k = 0 then base else base ++ "-" ++ Nat.repr k

/-- The `while` loop of `Guide.save`: `slug` is the candidate currently
checked, `c` the next value of the `itertools.count(1)` counter. -/
def allocLoop (existing : List String) (base : String) : Nat → String → Nat → String
  | 0, slug, _ => slug
  | fuel + 1, slug, c =>
    if slug ∈ existing then allocLoop existing base fuel (base ++ "-" ++ Nat.repr c) (c + 1)
    else slug

/-- Slug allocation as performed by `Guide.save` when no slug is set. -/
def guideNewSlug (existing : List String) (title : String) : String :=
  allocLoop existing (slugify title) (existing.length + 1) (slugify title) 1

/-- Model of `Guide.save`: computes and stores a slug when none is set (Python
`if not self.slug:` treats the empty string as unset); returns the slug
stored on the saved row.  The source has no failure path. -/
def guideSave (existing : List String) (currentSlug : String) (title : String) : String :=
  if currentSlug = "" then guideNewSlug existing title else currentSlug

/-! ### Data model: `HelpfulGuide` records

A database row for a guide, as used by `helper/serializers.py` and
`helper/views.py`.  Textual fields not used by any claim (title,
short_description, SEO metadata, featured_image) are omitted; `sections`
holds the `content` of the guide's `GuideSection` rows. -/

structure GuideRec where
  id : Nat
  slug : String
  category : String
  content : String
  is_published : Bool
  is_featured : Bool
  publication_date : Int
  view_count : Nat
  likes : Nat
  sections : List String
deriving DecidableEq

/-- Model of `increment_view_count`: `self.view_count += 1` then
`save(update_fields=["view_count"])`. -/
def bumpView (r : GuideRec) : GuideRec :=
  ⟨r.id, r.slug, r.category, r.content, r.is_published, r.is_featured,
    r.publication_date, r.view_count + 1, r.likes, r.sections⟩

/-- Row update of `like_guide`: `guide.likes += 1` then `save(update_fields=["likes"])`. -/
def bumpLikes (r : GuideRec) : GuideRec :=
  ⟨r.id, r.slug, r.category, r.content, r.is_published, r.is_featured,
    r.publication_date, r.view_count, r.likes + 1, r.sections⟩

/-! ### Reading time (`get_reading_time` in both guide serializers)

```python
word_count = len(obj.content.split()) + sum(
    len(section.content.split()) for section in obj.sections.all())
return max(1, word_count // 200)
```

Python `str.split()` with no argument splits on runs of whitespace and
ignores leading/trailing whitespace. -/

/-- Number of maximal nonempty runs of non-whitespace characters; the
boolean records whether the previous character was inside such a run. -/
def countWordsAux : List Char → Bool → Nat
  | [], _ => 0
  | c :: rest, inWord =>
    if c.isWhitespace then countWordsAux rest false
    else (if inWord then 0 else 1) + countWordsAux rest true

/-- Python `len(s.split())` for a string. -/
def pyWordCount (s : String) : Nat :=
  countWordsAux s.data false

/-- Model of `get_reading_time` of `HelpfulGuideDetailSerializer` (and, identically,
of `HelpfulGuideListSerializer`). -/
def readingTime (g : GuideRec) : Nat :=
  max 1 ((pyWordCount g.content + (g.sections.map pyWordCount).sum) / 200)

/-! ### Related guides (`get_related_guides` in the detail serializer)

```python
related = HelpfulGuide.objects.filter(
    category=obj.category, is_published=True
).exclude(id=obj.id)[:3]
```

The queryset carries the model `Meta` default ordering
`["-publication_date"]`, modelled as a merge sort with the descending
comparison. -/

/-- The default queryset ordering `-publication_date` as a Bool relation. -/
def pubDateDesc (a b : GuideRec) : Bool :=
  decide (b.publication_date ≤ a.publication_date)

def relatedGuides (db : List GuideRec) (g : GuideRec) : List GuideRec :=
  (((db.filter (fun r => r.category == g.category && r.is_published)).filter
      (fun r => !(r.id == g.id))).mergeSort pubDateDesc).take 3

/-! ### Detail retrieval (`HelpfulGuideDetailView`)

`get_queryset` filters `is_published=True`; `lookup_field = "slug"`; a
miss raises Http404.  `retrieve` then calls `increment_view_count()` on the
instance and serializes it. -/

inductive DetailResult where
  | notFound
  | ok (guide : GuideRec) (reading_time : Nat) (related : List GuideRec)
deriving DecidableEq

/-- Model of `self.get_object()`: look the slug up in the published-only queryset. -/
def findPublishedBySlug (db : List GuideRec) (slug : String) : Option GuideRec :=
  (db.filter (fun r => r.is_published)).find? (fun r => r.slug == slug)

/-- Durable effect of `increment_view_count` on the stored rows: the row
with the instance's primary key gets `view_count + 1`. -/
def incViewCountInDb (db : List GuideRec) (gid : Nat) : List GuideRec :=
  db.map (fun r => if r.id == gid then bumpView r else r)

/-- Model of `HelpfulGuideDetailView.retrieve`: 404 when the slug has no published
match, otherwise increment the view count and serialize the instance. -/
def getDetail (db : List GuideRec) (slug : String) : DetailResult × List GuideRec :=
  match findPublishedBySlug db slug with
  | none => (DetailResult.notFound, db)
  | some g =>
    (DetailResult.ok (bumpView g) (readingTime (bumpView g))
        (relatedGuides (incViewCountInDb db g.id) (bumpView g)),
      incViewCountInDb db g.id)

/-! ### Like endpoint (`like_guide` in `helper/views.py`)

```python
try:
    guide = HelpfulGuide.objects.get(id=guide_id, is_published=True)
    guide.likes += 1
    guide.save(update_fields=["likes"])
    return Response({"likes": guide.likes})
except HelpfulGuide.DoesNotExist:
    return Response({"error": "Guide not found"}, status=404)
``` -/

inductive LikeResult where
  | notFound
  | ok (likes : Nat)
deriving DecidableEq

def likeGuide (db : List GuideRec) (gid : Nat) : LikeResult × List GuideRec :=
  match db.find? (fun r => r.id == gid && r.is_published) with
  | none => (LikeResult.notFound, db)
  | some g =>
    (LikeResult.ok (g.likes + 1), db.map (fun r => if r.id == g.id then bumpLikes r else r))

/-! ### `services_needed` validation (`ServiceRequestSerializer`)

```python
def validate_services_needed(self, value):
    if not isinstance(value, list):
        raise serializers.ValidationError("Services must be provided as a list")
    for service in value:
        if not isinstance(service, dict) or "name" not in service or "price" not in service:
            raise serializers.ValidationError(
                "Each service must have \x22name\x22 and \x22price\x22 fields")
    return value
``` -/

inductive Json where
  | null
  | bool (b : Bool)
  | num (n : Int)
  | str (s : String)
  | arr (elems : List Json)
  | obj (fields : List (String × Json))

/-- Python `key in service` for a dict. -/
def hasKey (fields : List (String × Json)) (key : String) : Bool :=
  fields.any (fun kv => kv.fst == key)

/-- The `for service in value` loop: error on the first element that is
not a dict with both keys. -/
def checkServices : List Json → Except String Unit
  | [] => Except.ok ()
  | s :: rest =>
    match s with
    | Json.obj fields =>
      if hasKey fields "name" && hasKey fields "price" then checkServices rest
      else Except.error "Each service must have name and price fields"
    | _ => Except.error "Each service must have name and price fields"

def validate_services_needed (v : Json) : Except String Json :=
  match v with
  | Json.arr elems =>
    match checkServices elems with
    | Except.ok _ => Except.ok v
    | Except.error e => Except.error e
  | _ => Except.error "Services must be provided as a list"

/-- Follows the spec words for the refinement comparison: `services_needed`
is a list of objects each containing a name and a price key. -/
def specServicesWellFormed (v : Json) : Prop :=
  ∃ elems, v = Json.arr elems ∧
    ∀ s ∈ elems, ∃ fields, s = Json.obj fields ∧
      (∃ kv ∈ fields, kv.fst = "name") ∧ (∃ kv ∈ fields, kv.fst = "price")

def exMissingPrice : Json :=
  Json.arr [Json.obj [("name", Json.str "X")]]

def exGoodService : Json :=
  Json.arr [Json.obj [("name", Json.str "X"), ("price", Json.num 10)]]

/-! ### Content renderer

Modelled from the spec: the Content Renderer component (§4.4, §9) is not
among the source files under version control here; only this behavior is
given: parse the stored rich text as an HTML fragment (the source does a
string-based DOM scan), and for every embedded image reference whose
location begins with `/`, prefix `baseUrl`; with no `baseUrl`, return the
content unmodified.  The fragment is modelled as the sequence of scanned
markup tokens, image references carrying their `src`. -/

inductive HtmlToken where
  | text (s : String)
  | img (src : String)
deriving DecidableEq

/-- Modelled from the spec: an image location is root-relative when it
begins with `/`. -/
def isRootRelative (s : String) : Bool :=
  match s.data with
  | [] => false
  | c :: _ => c == '/'

/-- Modelled from the spec: rewrite a root-relative image location to an
absolute URL by prefixing the base URL. -/
def rewriteSrc (baseUrl : String) (src : String) : String :=
  if isRootRelative src then baseUrl ++ src else src

/-- Modelled from the spec: rewrite one scanned token. -/
def renderToken (baseUrl : Option String) (t : HtmlToken) : HtmlToken :=
  match baseUrl, t with
  | none, t => t
  | some _, HtmlToken.text s => HtmlToken.text s
  | some b, HtmlToken.img src => HtmlToken.img (rewriteSrc b src)

/-- Modelled from the spec: `render(rawContent, baseUrl)` over the scanned
fragment; with no base URL the content is returned unmodified. -/
def render (baseUrl : Option String) (content : List HtmlToken) : List HtmlToken :=
  content.map (renderToken baseUrl)

/-! ### Storage interleaving model for counter increments

`increment_view_count` (models.py) and `like_guide`, `helpful_review`
(views.py) all run `instance.field += 1; instance.save(...)` in
application code: the stored value is read when the instance is fetched,
and the fetched value plus one is written back on save.  Two concurrent
request handlers A and B therefore each issue a fetch step and a save
step against the shared stored counter; a schedule is one interleaving of
those four steps. -/

inductive RmwStep where
  | fetchA
  | saveA
  | fetchB
  | saveB

structure CounterState where
  stored : Nat
  instA : Option Nat
  instB : Option Nat
deriving DecidableEq

def rmwStep : CounterState → RmwStep → CounterState
  | s, RmwStep.fetchA => ⟨s.stored, some s.stored, s.instB⟩
  | s, RmwStep.saveA =>
    match s.instA with
    | some v => ⟨v + 1, s.instA, s.instB⟩
    | none => s
  | s, RmwStep.fetchB => ⟨s.stored, s.instA, some s.stored⟩
  | s, RmwStep.saveB =>
    match s.instB with
    | some v => ⟨v + 1, s.instA, s.instB⟩
    | none => s

/-- Run an interleaving of the two handlers from stored value `n`. -/
def runCounter (n : Nat) (sched : List RmwStep) : CounterState :=
  sched.foldl rmwStep ⟨n, none, none⟩

/-- Handler A completes before handler B starts. -/
def serializedSchedule : List RmwStep :=
  [RmwStep.fetchA, RmwStep.saveA, RmwStep.fetchB, RmwStep.saveB]

/-- Both handlers fetch the instance before either saves. -/
def racingSchedule : List RmwStep :=
  [RmwStep.fetchA, RmwStep.fetchB, RmwStep.saveA, RmwStep.saveB]

/-! ### Concrete records used by witnesses and counterexamples -/

/-- A string of `n` whitespace-separated words. -/
def wordsStr (n : Nat) : String :=
  String.intercalate " " (List.replicate n "w")

/-- Guide with empty content and a single 400-word section. -/
def gSection400 : GuideRec :=
  ⟨1, "g", "housing", "", true, false, 0, 0, 0, [wordsStr 400]⟩

/-- Guide with a 199-word content body and no sections. -/
def g199 : GuideRec :=
  ⟨2, "g199", "housing", wordsStr 199, true, false, 0, 0, 0, []⟩

/-- Guide with a 401-word content body and no sections. -/
def g401 : GuideRec :=
  ⟨3, "g401", "housing", wordsStr 401, true, false, 0, 0, 0, []⟩

/-- A published guide. -/
def gPub : GuideRec :=
  ⟨10, "pub", "housing", "hello world", true, false, 5, 7, 2, []⟩

/-- An unpublished guide. -/
def gDraft : GuideRec :=
  ⟨11, "draft", "housing", "draft body", false, false, 6, 0, 0, []⟩

/-! ### Decimal representation facts

`allocLoop` builds candidates with `Nat.repr`.  To know that the loop
terminates on a free candidate we need the candidates to be pairwise
distinct, hence injectivity of `Nat.repr`, proved here from the fuel
recursion of `Nat.toDigitsCore`. -/

theorem toDigitsCore_stop (b f n : Nat) (ds : List Char) (h : n / b = 0) :
    Nat.toDigitsCore b (f + 1) n ds = Nat.digitChar (n % b) :: ds := by
  simp only [Nat.toDigitsCore, h, if_true]

theorem toDigitsCore_step (b f n : Nat) (ds : List Char) (h : ¬n / b = 0) :
    Nat.toDigitsCore b (f + 1) n ds =
      Nat.toDigitsCore b f (n / b) (Nat.digitChar (n % b) :: ds) := by
  simp only [Nat.toDigitsCore, h, if_false]

theorem div_base_lt (b n : Nat) (hb : 2 ≤ b) (h : ¬n / b = 0) : n / b < n := by
  have hnpos : 0 < n := by
    rcases Nat.eq_zero_or_pos n with h0 | h0
    · subst h0; simp [Nat.zero_div] at h
    · exact h0
  exact Nat.div_lt_self hnpos (by omega)

theorem toDigitsCore_fuel_eq (b : Nat) (hb : 2 ≤ b) :
    ∀ (n f f' : Nat) (ds : List Char), n < f → n < f' →
      Nat.toDigitsCore b f n ds = Nat.toDigitsCore b f' n ds := by
  intro n
  induction n using Nat.strong_induction_on with
  | _ n ih =>
    intro f f' ds hf hf'
    cases f with
    | zero => omega
    | succ f =>
      cases f' with
      | zero => omega
      | succ f' =>
        by_cases h : n / b = 0
        · rw [toDigitsCore_stop b f n ds h, toDigitsCore_stop b f' n ds h]
        · rw [toDigitsCore_step b f n ds h, toDigitsCore_step b f' n ds h]
          have hlt := div_base_lt b n hb h
          exact ih (n / b) hlt f f' _ (by omega) (by omega)

theorem toDigitsCore_acc (b : Nat) (hb : 2 ≤ b) :
    ∀ (n f : Nat) (ds : List Char), n < f →
      Nat.toDigitsCore b f n ds = Nat.toDigitsCore b f n [] ++ ds := by
  intro n
  induction n using Nat.strong_induction_on with
  | _ n ih =>
    intro f ds hf
    cases f with
    | zero => omega
    | succ f =>
      by_cases h : n / b = 0
      · rw [toDigitsCore_stop b f n ds h, toDigitsCore_stop b f n [] h]
        rfl
      · rw [toDigitsCore_step b f n ds h, toDigitsCore_step b f n [] h]
        have hlt := div_base_lt b n hb h
        rw [ih (n / b) hlt f (Nat.digitChar (n % b) :: ds) (by omega),
          ih (n / b) hlt f [Nat.digitChar (n % b)] (by omega)]
        simp

theorem toDigits_of_lt (b n : Nat) (_hb : 2 ≤ b) (hn : n < b) :
    Nat.toDigits b n = [Nat.digitChar n] := by
  have h0 : n / b = 0 := Nat.div_eq_of_lt hn
  show Nat.toDigitsCore b (n + 1) n [] = _
  rw [toDigitsCore_stop b n n [] h0, Nat.mod_eq_of_lt hn]

theorem toDigits_of_ge (b n : Nat) (hb : 2 ≤ b) (hn : b ≤ n) :
    Nat.toDigits b n = Nat.toDigits b (n / b) ++ [Nat.digitChar (n % b)] := by
  have hdiv : ¬n / b = 0 := by
    have := Nat.div_pos hn (by omega)
    omega
  have hlt := div_base_lt b n hb hdiv
  show Nat.toDigitsCore b (n + 1) n [] = _
  rw [toDigitsCore_step b n n [] hdiv,
    toDigitsCore_acc b hb (n / b) n [Nat.digitChar (n % b)] hlt,
    toDigitsCore_fuel_eq b hb (n / b) n (n / b + 1) [] hlt (Nat.lt_succ_self _)]
  rfl

theorem toDigits_ne_nil (b n : Nat) (hb : 2 ≤ b) : Nat.toDigits b n ≠ [] := by
  by_cases h : n < b
  · rw [toDigits_of_lt b n hb h]; simp
  · rw [toDigits_of_ge b n hb (by omega)]; simp

theorem digitChar_inj_lt10 : ∀ m < 10, ∀ n < 10, Nat.digitChar m = Nat.digitChar n → m = n := by
  decide

theorem toDigits10_inj : ∀ m n : Nat, Nat.toDigits 10 m = Nat.toDigits 10 n → m = n := by
  intro m
  induction m using Nat.strong_induction_on with
  | _ m ih =>
    intro n h
    by_cases hm : m < 10 <;> by_cases hn : n < 10
    · rw [toDigits_of_lt 10 m (by omega) hm, toDigits_of_lt 10 n (by omega) hn] at h
      exact digitChar_inj_lt10 m hm n hn (List.singleton_injective h)
    · rw [toDigits_of_lt 10 m (by omega) hm, toDigits_of_ge 10 n (by omega) (by omega)] at h
      have hne := toDigits_ne_nil 10 (n / 10) (by omega)
      cases hd : Nat.toDigits 10 (n / 10) with
      | nil => exact absurd hd hne
      | cons a l =>
        rw [hd] at h
        have hlen := congrArg List.length h
        simp at hlen
    · rw [toDigits_of_ge 10 m (by omega) (by omega), toDigits_of_lt 10 n (by omega) hn] at h
      have hne := toDigits_ne_nil 10 (m / 10) (by omega)
      cases hd : Nat.toDigits 10 (m / 10) with
      | nil => exact absurd hd hne
      | cons a l =>
        rw [hd] at h
        have hlen := congrArg List.length h
        simp at hlen
    · rw [toDigits_of_ge 10 m (by omega) (by omega), toDigits_of_ge 10 n (by omega) (by omega)] at h
      have h2 := List.append_inj' h (by simp)
      have hdiv : m / 10 = n / 10 :=
        ih (m / 10) (Nat.div_lt_self (by omega) (by omega)) (n / 10) h2.1
      have hmod : m % 10 = n % 10 := by
        have := List.singleton_injective h2.2
        exact digitChar_inj_lt10 _ (Nat.mod_lt _ (by omega)) _ (Nat.mod_lt _ (by omega)) this
      omega

theorem natRepr_inj : ∀ m n : Nat, Nat.repr m = Nat.repr n → m = n := by
  intro m n h
  have : Nat.toDigits 10 m = Nat.toDigits 10 n := congrArg String.data h
  exact toDigits10_inj m n this

theorem natRepr_ne_nil (n : Nat) : (Nat.repr n).data ≠ [] :=
  toDigits_ne_nil 10 n (by omega)

/-! ### The allocation loop finds the first free candidate -/

theorem strData_append (a b : String) : (a ++ b).data = a.data ++ b.data := by
  cases a; cases b; rfl

theorem slugCandidate_inj (base : String) :
    ∀ k k', slugCandidate base k = slugCandidate base k' → k = k' := by
  intro k k' h
  match k, k' with
  | 0, 0 => rfl
  | 0, j + 1 =>
    exfalso
    simp only [slugCandidate, if_pos rfl, if_neg (Nat.succ_ne_zero j)] at h
    have hd := congrArg String.data h
    simp only [strData_append] at hd
    have hlen := congrArg List.length hd
    simp [List.length_append] at hlen
  | i + 1, 0 =>
    exfalso
    simp only [slugCandidate, if_pos rfl, if_neg (Nat.succ_ne_zero i)] at h
    have hd := congrArg String.data h
    simp only [strData_append] at hd
    have hlen := congrArg List.length hd
    simp [List.length_append] at hlen
  | i + 1, j + 1 =>
    simp only [slugCandidate, if_neg (Nat.succ_ne_zero i), if_neg (Nat.succ_ne_zero j)] at h
    have hd := congrArg String.data h
    simp only [strData_append, List.append_assoc] at hd
    have hr : (Nat.repr (i + 1)).data = (Nat.repr (j + 1)).data :=
      List.append_cancel_left (List.append_cancel_left hd)
    have := natRepr_inj _ _ (String.ext hr)
    omega

theorem exists_free_candidate (existing : List String) (base : String) :
    ∃ k, k ≤ existing.length ∧ slugCandidate base k ∉ existing := by
  by_contra hc
  push_neg at hc
  have hsub : ((List.range (existing.length + 1)).map (slugCandidate base)) ⊆ existing := by
    intro x hx
    simp only [List.mem_map, List.mem_range] at hx
    obtain ⟨k, hk, rfl⟩ := hx
    exact hc k (by omega)
  have hnd : ((List.range (existing.length + 1)).map (slugCandidate base)).Nodup :=
    (List.nodup_range _).map (fun k k' h => slugCandidate_inj base k k' h)
  have hle := (List.subperm_of_subset hnd hsub).length_le
  simp at hle

theorem allocLoop_spec (existing : List String) (base : String) :
    ∀ (fuel i k : Nat), i ≤ k → k < i + fuel → slugCandidate base k ∉ existing →
      (∀ j, i ≤ j → j < k → slugCandidate base j ∈ existing) →
      allocLoop existing base fuel (slugCandidate base i) (i + 1) = slugCandidate base k := by
  intro fuel
  induction fuel with
  | zero => intro i k h1 h2 _ _; omega
  | succ fuel ih =>
    intro i k h1 h2 hk hmin
    by_cases hik : k = i
    · subst hik
      simp [allocLoop, hk]
    · have hi : slugCandidate base i ∈ existing := hmin i le_rfl (by omega)
      simp only [allocLoop, if_pos hi]
      have hc : base ++ "-" ++ Nat.repr (i + 1) = slugCandidate base (i + 1) := by
        simp [slugCandidate]
      rw [hc]
      exact ih (i + 1) k (by omega) (by omega) hk (fun j hj1 hj2 => hmin j (by omega) hj2)

/-- Full characterization of the slug chosen by `Guide.save`: it is the
first candidate in the order base, base-1, base-2, … that no existing
Guide uses. -/
theorem guideNewSlug_spec (existing : List String) (title : String) :
    ∃ k, guideNewSlug existing title = slugCandidate (slugify title) k ∧
      slugCandidate (slugify title) k ∉ existing ∧
      ∀ j, j < k → slugCandidate (slugify title) j ∈ existing := by
  obtain ⟨m, hm, hfree⟩ := exists_free_candidate existing (slugify title)
  have hex : ∃ k, slugCandidate (slugify title) k ∉ existing := ⟨m, hfree⟩
  refine ⟨Nat.find hex, ?_, Nat.find_spec hex, fun j hj => not_not.mp (Nat.find_min hex hj)⟩
  have h0 : slugCandidate (slugify title) 0 = slugify title := by simp [slugCandidate]
  have hgoal : guideNewSlug existing title =
      allocLoop existing (slugify title) (existing.length + 1)
        (slugCandidate (slugify title) 0) (0 + 1) := by
    rw [h0]
    rfl
  rw [hgoal]
  refine allocLoop_spec existing (slugify title) (existing.length + 1) 0 (Nat.find hex)
    (Nat.zero_le _) ?_ (Nat.find_spec hex) (fun j _ hj2 => not_not.mp (Nat.find_min hex hj2))
  have := Nat.find_min' hex hfree
  omega

/-! ## Claim theorems -/

/-- Claim C1: for every title whose normalization yields a non-empty base
token, slug allocation returns the base token itself when no existing
Guide uses it, and otherwise the base token with the first numeric suffix
-1, -2, … (starting at 1) not used by any existing Guide; allocating from
the title "Visa & Residency Guide" three times in sequence yields
"visa-residency-guide", "visa-residency-guide-1", "visa-residency-guide-2". -/
theorem c1_slug_allocation (existing : List String) (title : String)
    (hne : slugify title ≠ "") :
    (slugify title ∉ existing → guideNewSlug existing title = slugify title) ∧
    (slugify title ∈ existing →
      ∃ k, 1 ≤ k ∧ guideNewSlug existing title = slugify title ++ "-" ++ Nat.repr k ∧
        (slugify title ++ "-" ++ Nat.repr k) ∉ existing ∧
        ∀ j, 1 ≤ j → j < k → (slugify title ++ "-" ++ Nat.repr j) ∈ existing) ∧
    guideNewSlug [] "Visa & Residency Guide" = "visa-residency-guide" ∧
    guideNewSlug ["visa-residency-guide"] "Visa & Residency Guide" = "visa-residency-guide-1" ∧
    guideNewSlug ["visa-residency-guide", "visa-residency-guide-1"] "Visa & Residency Guide" =
      "visa-residency-guide-2" := by
  obtain ⟨k, hres, hfree, hmin⟩ := guideNewSlug_spec existing title
  have hc0 : slugCandidate (slugify title) 0 = slugify title := by simp [slugCandidate]
  refine ⟨?_, ?_, by decide, by decide, by decide⟩
  · intro hnotin
    rcases Nat.eq_zero_or_pos k with hk | hk
    · subst hk; rwa [hc0] at hres
    · exact absurd (hc0 ▸ hmin 0 hk) hnotin
  · intro hin
    rcases Nat.eq_zero_or_pos k with hk | hk
    · subst hk; rw [hc0] at hfree; exact absurd hin hfree
    · have hck : slugCandidate (slugify title) k = slugify title ++ "-" ++ Nat.repr k := by
        simp [slugCandidate, Nat.pos_iff_ne_zero.mp hk]
      refine ⟨k, hk, by rw [hres, hck], by rw [← hck]; exact hfree, fun j hj1 hj2 => ?_⟩
      have hcj : slugCandidate (slugify title) j = slugify title ++ "-" ++ Nat.repr j := by
        simp [slugCandidate]; omega
      rw [← hcj]
      exact hmin j hj2

/-- Witness for C1 at the concrete title and an existing slug set. -/
theorem c1_slug_allocation_witness :
    slugify "Visa & Residency Guide" ≠ "" ∧
    ∃ k, 1 ≤ k ∧ guideNewSlug ["visa-residency-guide"] "Visa & Residency Guide" =
        slugify "Visa & Residency Guide" ++ "-" ++ Nat.repr k ∧
      (slugify "Visa & Residency Guide" ++ "-" ++ Nat.repr k) ∉ ["visa-residency-guide"] ∧
      ∀ j, 1 ≤ j → j < k →
        (slugify "Visa & Residency Guide" ++ "-" ++ Nat.repr j) ∈ ["visa-residency-guide"] :=
  ⟨by decide,
    (c1_slug_allocation ["visa-residency-guide"] "Visa & Residency Guide" (by decide)).2.1
      (by decide)⟩

/-- Claim C8 as stated is false: with a title that normalizes to the empty
token, no explicit slug and no existing Guide using the empty slug,
`Guide.save` completes and stores the Guide with slug `""` instead of
rejecting the creation. -/
theorem c8_counterexample :
    slugify "&&&" = "" ∧ guideSave [] "" "&&&" = "" := by
  constructor <;> decide

/-- Claim C8 amended: slug allocation never fails; when normalization
yields an empty token and no explicit slug is supplied, the Guide is
saved with the empty slug (when unused) rather than the creation being
rejected; when normalization yields a non-empty token the stored slug is
non-empty. -/
theorem c8_empty_slug (existing : List String) (title : String) :
    (slugify title = "" → "" ∉ existing → guideSave existing "" title = "") ∧
    (slugify title ≠ "" → guideSave existing "" title ≠ "") := by
  have hg : guideSave existing "" title = guideNewSlug existing title := by
    simp [guideSave]
  obtain ⟨k, hres, hfree, hmin⟩ := guideNewSlug_spec existing title
  have hc0 : slugCandidate (slugify title) 0 = slugify title := by simp [slugCandidate]
  constructor
  · intro h0 hnotin
    rcases Nat.eq_zero_or_pos k with hk | hk
    · subst hk; rw [hg, hres, hc0, h0]
    · have := hmin 0 hk
      rw [hc0, h0] at this
      exact absurd this hnotin
  · intro hne
    rw [hg, hres]
    cases k with
    | zero => rw [hc0]; exact hne
    | succ j =>
      intro hcontra
      have hd := congrArg String.data hcontra
      simp only [slugCandidate, if_neg (Nat.succ_ne_zero j), strData_append] at hd
      simp at hd

/-- Witness for C8 amended at the concrete title `"&&&"`. -/
theorem c8_empty_slug_witness :
    slugify "&&&" = "" ∧ "" ∉ ([] : List String) ∧ guideSave [] "" "&&&" = "" :=
  ⟨by decide, by decide, (c8_empty_slug [] "&&&").1 (by decide) (by decide)⟩

/-- Claim C2 as stated is false on the code: the increments are
read-modify-write in application code, and under the interleaving in which
both handlers fetch the row before either saves, two increments from
stored value 0 leave the counter at 1, not 0 + 2. -/
theorem c2_counterexample :
    (runCounter 0 racingSchedule).stored ≠ 0 + 2 := by
  decide

/-- Claim C2 amended: counter increments are read-modify-write in
application code (`instance.field += 1; instance.save(...)`); two
increments applied one after the other leave `n + 2`, but the
interleaving in which both handlers fetch before either saves loses one
update and leaves `n + 1`. -/
theorem c2_rmw_increments (n : Nat) :
    (runCounter n serializedSchedule).stored = n + 2 ∧
    (runCounter n racingSchedule).stored = n + 1 := by
  constructor <;> rfl

/-- Claim C3: `get_related_guides` returns at most 3 guides, each sharing
the input guide's category, published, never the input guide itself, never
an unpublished guide, ordered by publication date descending (and
deterministic, being a function of the stored rows). -/
theorem c3_related_guides (db : List GuideRec) (g : GuideRec) :
    (relatedGuides db g).length ≤ 3 ∧
    (∀ r ∈ relatedGuides db g,
      r.category = g.category ∧ r.is_published = true ∧ r.id ≠ g.id ∧ r ∈ db) ∧
    g ∉ relatedGuides db g ∧
    (∀ u, u.is_published = false → u ∉ relatedGuides db g) ∧
    (relatedGuides db g).Pairwise
      (fun a b => b.publication_date ≤ a.publication_date) := by
  have hmem : ∀ r ∈ relatedGuides db g,
      r.category = g.category ∧ r.is_published = true ∧ r.id ≠ g.id ∧ r ∈ db := by
    intro r hr
    have h1 := List.take_subset 3 _ hr
    have h2 := List.mem_mergeSort.mp h1
    have h3 := List.mem_filter.mp h2
    have h4 := List.mem_filter.mp h3.1
    have hcat : r.category = g.category ∧ r.is_published = true := by
      have := h4.2
      simp only [Bool.and_eq_true, beq_iff_eq] at this
      exact this
    have hid : r.id ≠ g.id := by
      have := h3.2
      simp only [Bool.not_eq_true', beq_eq_false_iff_ne, ne_eq] at this
      exact this
    exact ⟨hcat.1, hcat.2, hid, h4.1⟩
  refine ⟨?_, hmem, ?_, ?_, ?_⟩
  · exact List.length_take_le 3 _
  · intro hg
    exact absurd rfl (hmem g hg).2.2.1
  · intro u hu hmemu
    rw [(hmem u hmemu).2.1] at hu
    cases hu
  · have htrans : ∀ a b c : GuideRec, pubDateDesc a b → pubDateDesc b c → pubDateDesc a c := by
      intro a b c hab hbc
      simp only [pubDateDesc, decide_eq_true_eq] at *
      omega
    have htotal : ∀ a b : GuideRec, pubDateDesc a b || pubDateDesc b a := by
      intro a b
      simp only [pubDateDesc, Bool.or_eq_true, decide_eq_true_eq]
      omega
    have hs := @List.sorted_mergeSort GuideRec pubDateDesc htrans htotal
      ((db.filter (fun r => r.category == g.category && r.is_published)).filter
        (fun r => !(r.id == g.id)))
    have hst := List.Pairwise.sublist (List.take_sublist 3 _) hs
    exact hst.imp (fun h => by simpa [pubDateDesc] using h)

/-- Claim C4: detail retrieval by slug returns the same NotFound result,
leaving the rows unchanged, both when no guide carries the slug and when
every guide carrying it is unpublished — the two cases produce the
identical value, and `DetailResult` has no distinct forbidden outcome. -/
theorem c4_detail_not_found (db : List GuideRec) (slug : String)
    (h : ∀ g ∈ db, g.slug = slug → g.is_published = false) :
    getDetail db slug = (DetailResult.notFound, db) := by
  have hnone : findPublishedBySlug db slug = none := by
    rw [findPublishedBySlug, List.find?_eq_none]
    intro r hr
    have h2 := List.mem_filter.mp hr
    intro hslug
    rw [beq_iff_eq] at hslug
    rw [h r h2.1 hslug] at h2
    cases h2.2
  rw [getDetail, hnone]

/-- Witness for C4: a database holding one published and one unpublished
guide; looking up the unpublished slug and an unknown slug both yield the
identical NotFound result with the rows unchanged. -/
theorem c4_detail_not_found_witness :
    getDetail [gPub, gDraft] "draft" = (DetailResult.notFound, [gPub, gDraft]) ∧
    getDetail [gPub, gDraft] "unknown-slug" = (DetailResult.notFound, [gPub, gDraft]) :=
  ⟨c4_detail_not_found [gPub, gDraft] "draft" (by decide),
    c4_detail_not_found [gPub, gDraft] "unknown-slug" (by decide)⟩

set_option maxRecDepth 8000 in
/-- Claim C5 as stated is false on the code: reading time also counts the
words of the guide's sections; a guide with empty content and a single
400-word section has reading time 2, not `max 1 (wordCount(content) // 200) = 1`. -/
theorem c5_counterexample :
    readingTime gSection400 ≠ max 1 (pyWordCount gSection400.content / 200) := by
  decide

set_option maxRecDepth 8000 in
/-- Claim C5 amended: reading time is
`max(1, (wordCount(content) + Σ wordCount(section.content)) // 200)`,
so it equals `max(1, wordCount(content) // 200)` exactly for guides with
no sections; word counting splits the raw stored text on whitespace runs
with no HTML stripping; a 199-word content body with no sections yields 1
and a 401-word body yields 2. -/
theorem c5_reading_time (g : GuideRec) (hs : g.sections = []) :
    readingTime g = max 1 (pyWordCount g.content / 200) ∧
    readingTime g199 = 1 ∧ readingTime g401 = 2 := by
  refine ⟨?_, by decide, by decide⟩
  rw [readingTime, hs]
  simp

/-- Witness for C5 amended at the concrete 199-word guide. -/
theorem c5_reading_time_witness :
    g199.sections = [] ∧ readingTime g199 = max 1 (pyWordCount g199.content / 200) :=
  ⟨rfl, (c5_reading_time g199 rfl).1⟩

/-! ### Updating one row by primary key -/

theorem map_untouched (f : GuideRec → GuideRec) (gid : Nat) :
    ∀ l : List GuideRec, (∀ r ∈ l, r.id ≠ gid) →
      l.map (fun r => if r.id == gid then f r else r) = l := by
  intro l
  induction l with
  | nil => intro _; rfl
  | cons d rest ih =>
    intro h
    have hd : d.id ≠ gid := h d (List.mem_cons_self d rest)
    have hcond : ¬((d.id == gid) = true) := by simpa [beq_iff_eq] using hd
    simp only [List.map_cons, if_neg hcond]
    rw [ih (fun r hr => h r (List.mem_cons_of_mem d hr))]

theorem map_update_eq_set (f : GuideRec → GuideRec) :
    ∀ (db : List GuideRec) (i : Nat) (hi : i < db.length),
      (db.map (fun r => r.id)).Nodup →
      db.map (fun r => if r.id == (db.get ⟨i, hi⟩).id then f r else r) =
        db.set i (f (db.get ⟨i, hi⟩)) := by
  intro db
  induction db with
  | nil => intro i hi; simp at hi
  | cons d rest ih =>
    intro i hi hnd
    simp only [List.map_cons, List.nodup_cons] at hnd
    cases i with
    | zero =>
      show (d :: rest).map (fun r => if r.id == d.id then f r else r) = f d :: rest
      simp only [List.map_cons, if_pos (beq_self_eq_true d.id)]
      rw [map_untouched f d.id rest]
      intro r hr hcontra
      exact hnd.1 (List.mem_map.mpr ⟨r, hr, hcontra⟩)
    | succ j =>
      have hj : j < rest.length := by simpa using hi
      have hget : (d :: rest).get ⟨j + 1, hi⟩ = rest.get ⟨j, hj⟩ := rfl
      rw [hget]
      have hd : ¬((d.id == (rest.get ⟨j, hj⟩).id) = true) := by
        simp only [beq_iff_eq]
        intro hcontra
        exact hnd.1 (List.mem_map.mpr ⟨rest.get ⟨j, hj⟩, List.get_mem rest j hj, hcontra.symm⟩)
      simp only [List.map_cons, if_neg hd, List.set_cons_succ]
      rw [ih j hj hnd.2]

/-- Claim C6: a successful detail retrieval on a published slug increments
exactly that guide's stored view_count by exactly one (one row changed,
by one, all other rows untouched), and a NotFound call leaves the rows
unchanged. -/
theorem c6_view_count (db : List GuideRec) (slug : String)
    (hnd : (db.map (fun r => r.id)).Nodup) :
    (findPublishedBySlug db slug = none → getDetail db slug = (DetailResult.notFound, db)) ∧
    (∀ g, findPublishedBySlug db slug = some g →
      (getDetail db slug).1 ≠ DetailResult.notFound ∧
      ∃ i, ∃ hi : i < db.length, db.get ⟨i, hi⟩ = g ∧
        (getDetail db slug).2 = db.set i (bumpView g)) := by
  constructor
  · intro h
    rw [getDetail, h]
  · intro g hg
    have hmem : g ∈ db := by
      have := List.mem_of_find?_eq_some hg
      exact (List.mem_filter.mp this).1
    obtain ⟨⟨i, hi⟩, hget⟩ := List.mem_iff_get.mp hmem
    constructor
    · rw [getDetail, hg]
      simp
    · refine ⟨i, hi, hget, ?_⟩
      have hmap := map_update_eq_set bumpView db i hi hnd
      rw [hget] at hmap
      rw [getDetail, hg]
      exact hmap

/-- Witness for C6 on a concrete two-row database. -/
theorem c6_view_count_witness :
    (List.map (fun r => r.id) [gPub, gDraft]).Nodup ∧
    findPublishedBySlug [gPub, gDraft] "pub" = some gPub ∧
    (getDetail [gPub, gDraft] "pub").1 ≠ DetailResult.notFound := by
  refine ⟨by decide, by decide, ?_⟩
  exact ((c6_view_count [gPub, gDraft] "pub" (by decide)).2 gPub (by decide)).1

/-- Claim C10: liking a guide that does not exist or is unpublished
returns the 404 result and leaves the rows unchanged; liking a published
guide returns the new likes value and increments exactly that guide's
stored likes by one. -/
theorem c10_like_guide (db : List GuideRec) (gid : Nat)
    (hnd : (db.map (fun r => r.id)).Nodup) :
    (db.find? (fun r => r.id == gid && r.is_published) = none →
      likeGuide db gid = (LikeResult.notFound, db)) ∧
    ((∀ g ∈ db, g.id = gid → g.is_published = false) →
      likeGuide db gid = (LikeResult.notFound, db)) ∧
    (∀ g, db.find? (fun r => r.id == gid && r.is_published) = some g →
      (likeGuide db gid).1 = LikeResult.ok (g.likes + 1) ∧
      ∃ i, ∃ hi : i < db.length, db.get ⟨i, hi⟩ = g ∧
        (likeGuide db gid).2 = db.set i (bumpLikes g)) := by
  have hnonecase : db.find? (fun r => r.id == gid && r.is_published) = none →
      likeGuide db gid = (LikeResult.notFound, db) := by
    intro h
    rw [likeGuide, h]
  refine ⟨hnonecase, ?_, ?_⟩
  · intro h
    apply hnonecase
    rw [List.find?_eq_none]
    intro r hr hcontra
    simp only [Bool.and_eq_true, beq_iff_eq] at hcontra
    rw [h r hr hcontra.1] at hcontra
    cases hcontra.2
  · intro g hg
    have hmem : g ∈ db := List.mem_of_find?_eq_some hg
    obtain ⟨⟨i, hi⟩, hget⟩ := List.mem_iff_get.mp hmem
    constructor
    · rw [likeGuide, hg]
    · refine ⟨i, hi, hget, ?_⟩
      have hmap := map_update_eq_set bumpLikes db i hi hnd
      rw [hget] at hmap
      rw [likeGuide, hg]
      exact hmap

/-- Witness for C10 on a concrete two-row database: liking the published
guide with id 10 returns its likes plus one. -/
theorem c10_like_guide_witness :
    (List.map (fun r => r.id) [gPub, gDraft]).Nodup ∧
    (likeGuide [gPub, gDraft] 10).1 = LikeResult.ok (gPub.likes + 1) ∧
    likeGuide [gPub, gDraft] 11 = (LikeResult.notFound, [gPub, gDraft]) := by
  refine ⟨by decide, ?_, ?_⟩
  · exact ((c10_like_guide [gPub, gDraft] 10 (by decide)).2.2 gPub (by decide)).1
  · exact (c10_like_guide [gPub, gDraft] 11 (by decide)).1 (by decide)

/-! ### `services_needed` validation facts -/

theorem hasKey_iff (fields : List (String × Json)) (key : String) :
    hasKey fields key = true ↔ ∃ kv ∈ fields, kv.fst = key := by
  simp [hasKey, List.any_eq_true, beq_iff_eq]

theorem checkServices_ok_iff (l : List Json) :
    checkServices l = Except.ok () ↔
      ∀ s ∈ l, ∃ fields, s = Json.obj fields ∧
        hasKey fields "name" = true ∧ hasKey fields "price" = true := by
  induction l with
  | nil => simp [checkServices]
  | cons s rest ih =>
    cases s with
    | obj fields =>
      by_cases hk : (hasKey fields "name" && hasKey fields "price") = true
      · rw [Bool.and_eq_true] at hk
        simp only [checkServices, if_pos (Bool.and_eq_true _ _ |>.mpr hk),
          List.forall_mem_cons, ih]
        constructor
        · intro h
          exact ⟨⟨fields, rfl, hk.1, hk.2⟩, h⟩
        · intro h
          exact h.2
      · simp only [checkServices, if_neg hk, List.forall_mem_cons]
        constructor
        · intro h
          exact absurd h (by simp)
        · intro h
          obtain ⟨fields', heq, h1, h2⟩ := h.1
          have : fields' = fields := by injection heq.symm
          subst this
          rw [Bool.and_eq_true] at hk
          exact absurd ⟨h1, h2⟩ hk
    | null =>
      simp [checkServices]
    | bool b =>
      simp [checkServices]
    | num n =>
      simp [checkServices]
    | str t =>
      simp [checkServices]
    | arr elems =>
      simp [checkServices]

/-- Claim C7: the `services_needed` validator rejects a value with a
validation error exactly when the value is not a list of objects each
containing both a name and a price key; `[{"name": "X"}]` is rejected
while `[{"name": "X", "price": 10}]` is accepted. -/
theorem c7_services_validation :
    (∀ v : Json,
      (∃ e, validate_services_needed v = Except.error e) ↔ ¬specServicesWellFormed v) ∧
    (∃ e, validate_services_needed exMissingPrice = Except.error e) ∧
    validate_services_needed exGoodService = Except.ok exGoodService := by
  refine ⟨?_, ⟨"Each service must have name and price fields", rfl⟩, rfl⟩
  intro v
  cases v with
  | arr elems =>
    constructor
    · rintro ⟨e, he⟩ hspec
      obtain ⟨elems', heq, hall⟩ := hspec
      have helems : elems' = elems := by injection heq.symm
      rw [helems] at hall
      have hok : checkServices elems = Except.ok () := by
        rw [checkServices_ok_iff]
        intro s hs
        obtain ⟨fields, hsf, h1, h2⟩ := hall s hs
        exact ⟨fields, hsf, (hasKey_iff fields "name").mpr h1,
          (hasKey_iff fields "price").mpr h2⟩
      rw [validate_services_needed, hok] at he
      cases he
    · intro hns
      cases hc : checkServices elems with
      | ok u =>
        exfalso
        apply hns
        cases u
        refine ⟨elems, rfl, fun s hs => ?_⟩
        obtain ⟨fields, hsf, h1, h2⟩ := (checkServices_ok_iff elems).mp hc s hs
        exact ⟨fields, hsf, (hasKey_iff fields "name").mp h1,
          (hasKey_iff fields "price").mp h2⟩
      | error e =>
        exact ⟨e, by rw [validate_services_needed, hc]⟩
  | null =>
    constructor
    · intro _ hspec
      obtain ⟨elems, heq, _⟩ := hspec
      exact Json.noConfusion heq
    · intro _
      exact ⟨"Services must be provided as a list", rfl⟩
  | bool b =>
    constructor
    · intro _ hspec
      obtain ⟨elems, heq, _⟩ := hspec
      exact Json.noConfusion heq
    · intro _
      exact ⟨"Services must be provided as a list", rfl⟩
  | num n =>
    constructor
    · intro _ hspec
      obtain ⟨elems, heq, _⟩ := hspec
      exact Json.noConfusion heq
    · intro _
      exact ⟨"Services must be provided as a list", rfl⟩
  | str t =>
    constructor
    · intro _ hspec
      obtain ⟨elems, heq, _⟩ := hspec
      exact Json.noConfusion heq
    · intro _
      exact ⟨"Services must be provided as a list", rfl⟩
  | obj fields =>
    constructor
    · intro _ hspec
      obtain ⟨elems, heq, _⟩ := hspec
      exact Json.noConfusion heq
    · intro _
      exact ⟨"Services must be provided as a list", rfl⟩

/-! ### Content renderer facts -/

theorem rewriteSrc_idem (b src : String) (hb : isRootRelative b = false) :
    rewriteSrc b (rewriteSrc b src) = rewriteSrc b src := by
  by_cases hsrc : isRootRelative src = true
  · have hin : rewriteSrc b src = b ++ src := by rw [rewriteSrc, if_pos hsrc]
    rw [hin]
    cases b with
    | mk bdata =>
      cases bdata with
      | nil =>
        have h1 : String.mk [] ++ src = src := by cases src; rfl
        rw [h1, rewriteSrc, if_pos hsrc]
        exact h1
      | cons c cs =>
        have hc : (c == '/') = false := by simpa [isRootRelative] using hb
        have hcc : isRootRelative (String.mk (c :: cs) ++ src) = false := by
          cases src with
          | mk sdata =>
            show isRootRelative (String.mk ((c :: cs) ++ sdata)) = false
            simpa [isRootRelative] using hc
        rw [rewriteSrc, if_neg (by simp [hcc])]
  · have hin : rewriteSrc b src = src := by rw [rewriteSrc, if_neg hsrc]
    rw [hin, hin]

/-- Claim C9 (content renderer, modelled from the spec): every
root-relative image reference is rewritten by prefixing the base URL,
absent base URL returns the content unmodified, already-absolute
references are untouched, and rendering twice with the same (absolute,
non root-relative) base URL equals rendering once. -/
theorem c9_render (b : String) (hb : isRootRelative b = false) :
    (∀ content, render none content = content) ∧
    (∀ src, isRootRelative src = true →
      renderToken (some b) (HtmlToken.img src) = HtmlToken.img (b ++ src)) ∧
    (∀ src, isRootRelative src = false →
      renderToken (some b) (HtmlToken.img src) = HtmlToken.img src) ∧
    (∀ content, render (some b) (render (some b) content) = render (some b) content) ∧
    render (some "https://ex.com") [HtmlToken.img "/media/x.png"] =
      [HtmlToken.img "https://ex.com/media/x.png"] := by
  refine ⟨?_, ?_, ?_, ?_, by decide⟩
  · intro content
    have hfun : renderToken none = fun t => t :=
      funext fun t => by cases t <;> rfl
    rw [render, hfun]
    simp
  · intro src h
    simp [renderToken, rewriteSrc, h]
  · intro src h
    simp [renderToken, rewriteSrc, h]
  · intro content
    simp only [render, List.map_map]
    apply List.map_congr_left
    intro t _
    show renderToken (some b) (renderToken (some b) t) = renderToken (some b) t
    cases t with
    | text s => rfl
    | img src =>
      show HtmlToken.img (rewriteSrc b (rewriteSrc b src)) = HtmlToken.img (rewriteSrc b src)
      rw [rewriteSrc_idem b src hb]

/-- Witness for C9 at the concrete absolute base URL. -/
theorem c9_render_witness :
    isRootRelative "https://ex.com" = false ∧
    render (some "https://ex.com")
        (render (some "https://ex.com") [HtmlToken.img "/media/x.png"]) =
      render (some "https://ex.com") [HtmlToken.img "/media/x.png"] := by
  refine ⟨by decide, ?_⟩
  exact (c9_render "https://ex.com" (by decide)).2.2.2.1 [HtmlToken.img "/media/x.png"]

end Helper
